import Mathlib

/-!
Shallow embedding of the APSViz supervisor run state machine
(`src/supervisor/src/job_supervisor.py`).

The embedding models:
  - the `JobType` / `JobStatus` enums (the latter is an `int` enum in the
    source, so it is embedded as `Int` constants: Python `IntEnum` members
    compare by value, which makes `compute_mbtiles_0_9_complete` and
    `compute_mbtiles_10_running` the same value, 80, exactly as in the
    source);
  - a run record (the source uses a dict with fixed keys);
  - the external calls the supervisor makes (state store, slack,
    kubernetes driver) as an explicit trace of `ExtCall` values, with an
    oracle `Env.raises` that says which calls raise exceptions; a call that
    raises leaves no trace entry, and the exception carries the run state
    at the moment of the raise since the source mutates the run dict in
    place before some calls;
  - `handle_run`, the per-run loop body dispatch (`process_one`), the
    iteration of the loop over `run_list` with Python list-iterator
    semantics (`processFrom`, fueled; the iterator index advances even
    when the current element was removed), admission
    (`get_incomplete_runs`), one full tick (`tick`), and the idle-backoff
    sleep computation (`next_sleep_state`).

The job-spec binding performed by `k8s_create_job_obj` (job names, volume
names, command lines) is not observable by any property treated here; job
submission is modeled as the single external call `ExtCall.k8sExec`.
-/

namespace Supervisor

/-- The `JobType` string enum of the source. The string values (after
Python unpacks the accidental one-element tuples) are given by
`JobType.toStr`. -/
inductive JobType where
  | staging
  | obs_mod
  | run_geo_tiff
  | compute_mbtiles_0_9
  | compute_mbtiles_10
  | compute_mbtiles_11
  | compute_mbtiles_12
  | load_geo_server
  | final_staging
  | error
  | other_1
  | complete
deriving DecidableEq, Repr

/-- String value of each `JobType` member, as the source's f-strings
render it (Python 3.8-3.10 formats a str-mixin enum by its value). -/
def JobType.toStr : JobType → String
  | .staging => "staging"
  | .obs_mod => "obs-mod"
  | .run_geo_tiff => "run-geo-tiff"
  | .compute_mbtiles_0_9 => "compute-mbtiles-0-9"
  | .compute_mbtiles_10 => "compute-mbtiles-10"
  | .compute_mbtiles_11 => "compute-mbtiles-11"
  | .compute_mbtiles_12 => "compute-mbtiles-12"
  | .load_geo_server => "load-geo-server"
  | .final_staging => "final-staging"
  | .error => "error"
  | .other_1 => "TBD"
  | .complete => "complete"

namespace JobStatus

/-- JobStatus.new = 1 -/
def new : Int := 1

/-- JobStatus.staging_running = 10 -/
def staging_running : Int := 10

/-- JobStatus.staging_complete = 20 -/
def staging_complete : Int := 20

/-- JobStatus.obs_mod_running = 30 -/
def obs_mod_running : Int := 30

/-- JobStatus.obs_mod_complete = 40 -/
def obs_mod_complete : Int := 40

/-- JobStatus.run_geo_tiff_running = 50 -/
def run_geo_tiff_running : Int := 50

/-- JobStatus.run_geo_tiff_complete = 60 -/
def run_geo_tiff_complete : Int := 60

/-- JobStatus.compute_mbtiles_0_9_running = 70 -/
def compute_mbtiles_0_9_running : Int := 70

/-- JobStatus.compute_mbtiles_0_9_complete = 80 -/
def compute_mbtiles_0_9_complete : Int := 80

/-- JobStatus.compute_mbtiles_10_running = 80 (same numeric value as
`compute_mbtiles_0_9_complete`, as in the source). -/
def compute_mbtiles_10_running : Int := 80

/-- JobStatus.compute_mbtiles_10_complete = 90 -/
def compute_mbtiles_10_complete : Int := 90

/-- JobStatus.compute_mbtiles_11_running = 100 -/
def compute_mbtiles_11_running : Int := 100

/-- JobStatus.compute_mbtiles_11_complete = 110 -/
def compute_mbtiles_11_complete : Int := 110

/-- JobStatus.compute_mbtiles_12_running = 120 -/
def compute_mbtiles_12_running : Int := 120

/-- JobStatus.compute_mbtiles_12_complete = 130 -/
def compute_mbtiles_12_complete : Int := 130

/-- JobStatus.load_geo_server_running = 140 -/
def load_geo_server_running : Int := 140

/-- JobStatus.load_geo_server_complete = 150 -/
def load_geo_server_complete : Int := 150

/-- JobStatus.final_staging_running = 160 -/
def final_staging_running : Int := 160

/-- JobStatus.final_staging_complete = 170 -/
def final_staging_complete : Int := 170

/-- JobStatus.warning = 9999 -/
def warning : Int := 9999

/-- JobStatus.error = -1 -/
def error : Int := -1

end JobStatus

/-- One entry of the supervisor's `run_list`: the source stores a dict
with keys `id`, `job-type`, `status`, `status_prov`, `downloadurl`,
`gridname`, `instance_name` (plus job bindings, not modeled). -/
structure Run where
  id : Nat
  jobType : JobType
  status : Int
  statusProv : String
  downloadurl : String
  gridname : String
  instanceName : String
deriving DecidableEq, Repr

/-- An external call performed by the supervisor during a tick. -/
inductive ExtCall where
  | getNewRuns
  | updateStatus (run_id : Nat) (prov : String)
  | slackPost (text : String)
  | k8sExec (run_id : Nat) (jt : JobType)
  | k8sFind (run_id : Nat)
  | k8sDelete (run_id : Nat)
deriving DecidableEq, Repr

/-- One admitted-run record returned by `pg_db.get_new_runs()`:
a run id plus the `run_data` mapping. -/
structure NewRun where
  run_id : Nat
  run_data : List (String × String)
deriving DecidableEq, Repr

/-- Environment of one tick: what `get_new_runs` returns, what
`find_job_info` reports per run id (`none` in the first component means
the job is no longer active), and which external calls raise. -/
structure Env where
  newRuns : List NewRun
  find : Nat → Option Nat × String
  raises : ExtCall → Bool

/-- An environment in which no external call raises an exception. -/
def reliableEnv (env : Env) : Prop := ∀ c : ExtCall, env.raises c = false

/-- Perform external call `c`: `none` when the call raises, otherwise the
trace extended with the call. -/
def tryCall (env : Env) (tr : List ExtCall) (c : ExtCall) : Option (List ExtCall) :=
  if env.raises c then none else some (tr ++ [c])

/-- Python `d.__contains__(k)` on the `run_data` mapping. -/
def dictHas (d : List (String × String)) (k : String) : Bool :=
  d.any (fun p => p.1 == k)

/-- Python `d[k]` on the `run_data` mapping (only used on present keys). -/
def dictGet (d : List (String × String)) (k : String) : String :=
  ((d.find? (fun p => p.1 == k)).map (fun p => p.2)).getD ""

/-- Text built by `send_slack_msg`:
`"APSViz Supervisor - [Instance name: <n>, ]Run ID: <id> <msg>"`. -/
def send_slack_msg (run_id : Nat) (msg : String) (instance_name : Option String) : String :=
  let final_msg := "APSViz Supervisor - "
  let final_msg := final_msg ++ (match instance_name with
    | some n => "Instance name: " ++ n ++ ", "
    | none => "")
  final_msg ++ "Run ID: " ++ toString run_id ++ " " ++ msg

/-- Python `s.startswith(pre)`: prefix test on the character lists
(structurally recursive so that concrete instances compute). -/
def py_startswith (s pre : String) : Bool :=
  pre.data.isPrefixOf s.data

/-- Occurrence of `sub` at some position of the list (structural
recursion over the positions). -/
def containsSub (sub : List Char) : List Char → Bool
  | [] => sub.isEmpty
  | c :: t => sub.isPrefixOf (c :: t) || containsSub sub t

/-- Python `sub in s` / `s.find(sub) != -1`: substring occurrence. -/
def py_contains (s sub : String) : Bool :=
  containsSub sub.data s.data

/-- Python `s.find(sub) == -1`: true iff `sub` does not occur in `s`. -/
def find_missing (s sub : String) : Bool :=
  ! py_contains s sub

/-- Result of one stage-handler or dispatch computation: either a normal
result (new run state, the `no_activity` value, trace) or an exception
carrying the run state at the moment of the raise plus the trace so far. -/
abbrev HandlerResult := Except (Run × List ExtCall) (Run × Bool × List ExtCall)

/-- Branch A of a stage handler (`run['status'] == JobStatus.new`):
submit the job, set the stage's running status, append the running
marker, write the status store. -/
def branchA (env : Env) (tr : List ExtCall) (run : Run)
    (runningStatus : Int) (runningMarker : String) : HandlerResult :=
  match tryCall env tr (.k8sExec run.id run.jobType) with
  | none => .error (run, tr)
  | some tr₁ =>
    let run₁ : Run := { run with
      status := runningStatus
      statusProv := run.statusProv ++ runningMarker }
    match tryCall env tr₁ (.updateStatus run.id run₁.statusProv) with
    | none => .error (run₁, tr₁)
    | some tr₂ => .ok (run₁, false, tr₂)

/-- Branch B of a stage handler (the stage's running status): inspect the
job; on completion without a "Failed" pod condition delete the job,
advance to the successor state, append the complete marker and write the
store; on a "Failed" pod condition delete the job, notify, and move to
the failure state (no store write); otherwise do nothing. -/
def branchB (env : Env) (tr : List ExtCall) (run : Run)
    (succType : JobType) (succStatus : Int) (completeMarker : String)
    (failType : JobType) (failStatus : Int) (failMsg : String) : HandlerResult :=
  match tryCall env tr (.k8sFind run.id) with
  | none => .error (run, tr)
  | some tr₁ =>
    let fr := env.find run.id
    if fr.1 = none ∧ ¬ py_startswith fr.2 "Failed" then
      match tryCall env tr₁ (.k8sDelete run.id) with
      | none => .error (run, tr₁)
      | some tr₂ =>
        let run₁ : Run := { run with
          jobType := succType
          status := succStatus
          statusProv := run.statusProv ++ completeMarker }
        match tryCall env tr₂ (.updateStatus run.id run₁.statusProv) with
        | none => .error (run₁, tr₂)
        | some tr₃ => .ok (run₁, false, tr₃)
    else if py_startswith fr.2 "Failed" then
      match tryCall env tr₁ (.k8sDelete run.id) with
      | none => .error (run, tr₁)
      | some tr₂ =>
        match tryCall env tr₂ (.slackPost (send_slack_msg run.id failMsg (some run.instanceName))) with
        | none => .error (run, tr₂)
        | some tr₃ => .ok ({ run with jobType := failType, status := failStatus }, false, tr₃)
    else
      .ok (run, false, tr₁)

/-- The `handle_run` method: the if/elif cascade over `run['job-type']`,
with each arm's two branches keyed on `run['status']`. The source
initializes `no_activity = False` at the top and never assigns `True`,
so every normal return reports activity, including the fall-through for
job types without a handler (note there is no `compute_mbtiles_12` arm
in the source). -/
def handle_run (env : Env) (run : Run) (tr : List ExtCall) : HandlerResult :=
  if run.jobType = JobType.staging then
    if run.status = JobStatus.new then
      branchA env tr run JobStatus.staging_running ", Staging running"
    else if run.status = JobStatus.staging_running ∧ run.status ≠ JobStatus.error then
      branchB env tr run JobType.obs_mod JobStatus.new ", Staging complete"
        JobType.error JobStatus.error "failed in staging."
    else .ok (run, false, tr)
  else if run.jobType = JobType.obs_mod then
    if run.status = JobStatus.new then
      branchA env tr run JobStatus.obs_mod_running ", Obs/Mod running"
    else if run.status = JobStatus.obs_mod_running ∧ run.status ≠ JobStatus.error then
      branchB env tr run JobType.run_geo_tiff JobStatus.new ", Obs/Mod complete"
        JobType.error JobStatus.error "failed in obs-mod."
    else .ok (run, false, tr)
  else if run.jobType = JobType.run_geo_tiff then
    if run.status = JobStatus.new then
      branchA env tr run JobStatus.run_geo_tiff_running ", Geo tiff running"
    else if run.status = JobStatus.run_geo_tiff_running ∧ run.status ≠ JobStatus.error then
      branchB env tr run JobType.compute_mbtiles_0_9 JobStatus.new ", Geo tiff complete"
        JobType.error JobStatus.error "failed in run-geo-tiff."
    else .ok (run, false, tr)
  else if run.jobType = JobType.compute_mbtiles_0_9 then
    if run.status = JobStatus.new then
      branchA env tr run JobStatus.compute_mbtiles_0_9_running ", Compute mbtiles 0-9 running"
    else if run.status = JobStatus.compute_mbtiles_0_9_running ∧ run.status ≠ JobStatus.error then
      branchB env tr run JobType.load_geo_server JobStatus.new ", Compute mbtiles zoom 0-9 complete"
        JobType.error JobStatus.error "failed in compute-mbtiles-0-9."
    else .ok (run, false, tr)
  else if run.jobType = JobType.compute_mbtiles_10 then
    if run.status = JobStatus.new then
      branchA env tr run JobStatus.compute_mbtiles_10_running ",Compute mbtiles running"
    else if run.status = JobStatus.compute_mbtiles_10_running ∧ run.status ≠ JobStatus.error then
      branchB env tr run JobType.load_geo_server JobStatus.new ", Compute mbtiles zoom 10 complete"
        JobType.error JobStatus.error "failed in compute-mbtiles-10."
    else .ok (run, false, tr)
  else if run.jobType = JobType.compute_mbtiles_11 then
    if run.status = JobStatus.new then
      branchA env tr run JobStatus.compute_mbtiles_11_running ",Compute mbtiles running"
    else if run.status = JobStatus.compute_mbtiles_11_running ∧ run.status ≠ JobStatus.error then
      branchB env tr run JobType.load_geo_server JobStatus.new ", Compute mbtiles zoom 11 complete"
        JobType.error JobStatus.error "failed in compute-mbtiles-11."
    else .ok (run, false, tr)
  else if run.jobType = JobType.load_geo_server then
    if run.status = JobStatus.new then
      branchA env tr run JobStatus.load_geo_server_running ", Load geo server running"
    else if run.status = JobStatus.load_geo_server_running ∧ run.status ≠ JobStatus.error then
      branchB env tr run JobType.final_staging JobStatus.new ", Load geo server complete"
        JobType.error JobStatus.error "failed in load-geo-server."
    else .ok (run, false, tr)
  else if run.jobType = JobType.final_staging then
    if run.status = JobStatus.new then
      branchA env tr run JobStatus.final_staging_running ", Final staging running"
    else if run.status = JobStatus.final_staging_running ∧ run.status ≠ JobStatus.error then
      branchB env tr run JobType.complete JobStatus.final_staging_complete ", Final staging complete"
        JobType.complete JobStatus.final_staging_complete
        "failed in final-staging. *Warning: Intermediate files may not have been removed.*"
    else .ok (run, false, tr)
  else .ok (run, false, tr)

/-- Outcome of processing one `run_list` entry inside the loop body
(lines 157-224 of the source): the run was removed (`Complete` dispatch
reached `run_list.remove`), kept (possibly mutated; `act = some b` when
`no_activity` was assigned from a normal `handle_run` return, `none` when
the `Complete`/`Error` dispatches or a caught exception `continue`d), or
an exception escaped both guards (an exception raised inside the second
guard's own `except` block propagates out of the loop in Python). -/
inductive StepOut where
  | removed (r : Run) (tr : List ExtCall)
  | kept (r : Run) (act : Option Bool) (tr : List ExtCall)
  | crashed (r : Run) (tr : List ExtCall)
deriving Repr

/-- The loop body for one run: the `Complete` dispatch (finalize and
remove), the `Error` dispatch (schedule cleanup), or the stage handler,
each under its guard. Mutations of the run dict that the source performs
before a raising call are preserved in the outcome. -/
def process_one (env : Env) (run : Run) (tr : List ExtCall) : StepOut :=
  if run.jobType = JobType.complete then
    let run₁ : Run := { run with statusProv := run.statusProv ++ ", Run complete" }
    match tryCall env tr (.updateStatus run.id run₁.statusProv) with
    | none => .kept run₁ none tr
    | some tr₁ =>
      let msg :=
        if find_missing run₁.statusProv "Error" then
          "*completed successfully*."
        else
          "*completed unsuccessfully*.\nRun provenance: " ++ run₁.statusProv ++ "."
      match tryCall env tr₁ (.slackPost (send_slack_msg run.id msg (some run.instanceName))) with
      | none => .kept run₁ none tr₁
      | some tr₂ => .removed run₁ tr₂
  else if run.jobType = JobType.error then
    let run₁ : Run := { run with statusProv := run.statusProv ++ ", Error detected" }
    match tryCall env tr (.updateStatus run.id run₁.statusProv) with
    | none => .kept run₁ none tr
    | some tr₁ => .kept { run₁ with jobType := JobType.final_staging, status := JobStatus.new } none tr₁
  else
    match handle_run env run tr with
    | .ok (r₁, b, tr₁) => .kept r₁ (some b) tr₁
    | .error (r₁, tr₁) =>
      match tryCall env tr₁ (.k8sDelete run.id) with
      | none => .crashed r₁ tr₁
      | some tr₂ =>
        let r₂ : Run := { r₁ with statusProv := r₁.statusProv ++ ", Run handler error detected" }
        match tryCall env tr₂ (.updateStatus run.id r₂.statusProv) with
        | none => .crashed r₂ tr₂
        | some tr₃ => .kept { r₂ with jobType := JobType.error, status := JobStatus.error } none tr₃

/-- State of one pass of the reconciliation loop over `run_list`:
the (mutable) list, the `no_activity` flag, the trace of external calls,
and the runs the `for` iterator has yielded so far. -/
structure TickState where
  runs : List Run
  noActivity : Bool
  trace : List ExtCall
  visited : List Run
deriving Repr

/-- How a tick ends: normally (the loop reaches its sleep) or with an
exception escaping the loop. -/
inductive TickOut where
  | ok (s : TickState)
  | crashed (s : TickState)
deriving Repr

/-- Runs the `visited` list of a tick outcome. -/
def TickOut.visitedOf : TickOut → List Run
  | .ok s => s.visited
  | .crashed s => s.visited

/-- The `for run in self.run_list` loop with CPython list-iterator
semantics: the iterator keeps an index that advances by one after each
yielded element, reading from the current (mutated) list; `remove`
deletes the first element equal to its argument, so removing the current
element shifts the successor under the already-advanced index. `fuel`
bounds the recursion; since the index grows by one per step and the list
never grows during the pass, `fuel = runs.length - idx` always
suffices. -/
def processFrom (env : Env) : Nat → Nat → TickState → TickOut
  | 0, _, s => .ok s
  | fuel + 1, idx, s =>
    if h : idx < s.runs.length then
      let run := s.runs.get ⟨idx, h⟩
      let s₀ : TickState := { s with visited := s.visited ++ [run] }
      match process_one env run s.trace with
      | .removed r₁ tr₁ =>
        processFrom env fuel (idx + 1)
          { s₀ with runs := (s₀.runs.set idx r₁).erase r₁, trace := tr₁ }
      | .kept r₁ act tr₁ =>
        processFrom env fuel (idx + 1)
          { s₀ with
            runs := s₀.runs.set idx r₁
            trace := tr₁
            noActivity := match act with | some b => b | none => s₀.noActivity }
      | .crashed r₁ tr₁ =>
        .crashed { s₀ with runs := s₀.runs.set idx r₁, trace := tr₁ }
    else .ok s

/-- Admission of a single fetched run (body of the `for run in runs` loop
of `get_incomplete_runs`): with all three required keys present, append
the new entry to `run_list`, write the store, notify "accepted."; with a
key missing, write the failure status and notify. Any raise escapes
(there is no try/except in `get_incomplete_runs` or `send_slack_msg`). -/
def admit_one (env : Env) (acc : List Run × List ExtCall) (nr : NewRun) :
    Except (List Run × List ExtCall) (List Run × List ExtCall) :=
  let rl := acc.1
  let tr := acc.2
  if dictHas nr.run_data "downloadurl" ∧ dictHas nr.run_data "adcirc.gridname" ∧
      dictHas nr.run_data "instancename" then
    let entry : Run := {
      id := nr.run_id
      jobType := JobType.staging
      status := JobStatus.new
      statusProv := "New, Run accepted"
      downloadurl := dictGet nr.run_data "downloadurl"
      gridname := dictGet nr.run_data "adcirc.gridname"
      instanceName := dictGet nr.run_data "instancename" }
    let rl₁ := rl ++ [entry]
    match tryCall env tr (.updateStatus nr.run_id "New, Run accepted") with
    | none => .error (rl₁, tr)
    | some tr₁ =>
      match tryCall env tr₁
          (.slackPost (send_slack_msg nr.run_id "accepted." (some (dictGet nr.run_data "instancename")))) with
      | none => .error (rl₁, tr₁)
      | some tr₂ => .ok (rl₁, tr₂)
  else
    match tryCall env tr (.updateStatus nr.run_id "Error - Lacks the required run properties.") with
    | none => .error (rl, tr)
    | some tr₁ =>
      let iname : Option String :=
        if dictHas nr.run_data "instancename" then some (dictGet nr.run_data "instancename") else none
      match tryCall env tr₁
          (.slackPost (send_slack_msg nr.run_id "lacked the required run properties." iname)) with
      | none => .error (rl, tr₁)
      | some tr₂ => .ok (rl, tr₂)

/-- Folds `admit_one` over the fetched runs, propagating a raise. -/
def admitAll (env : Env) : List NewRun → List Run × List ExtCall →
    Except (List Run × List ExtCall) (List Run × List ExtCall)
  | [], acc => .ok acc
  | nr :: rest, acc =>
    match admit_one env acc nr with
    | .error e => .error e
    | .ok acc₁ => admitAll env rest acc₁

/-- The `get_incomplete_runs` method: fetch the admitted runs from the
state store (modeled so that the `-1` / `None` returns correspond to an
empty `newRuns` list) and admit each in order. Unguarded: a raise
anywhere escapes to the caller. -/
def get_incomplete_runs (env : Env) (rl : List Run) (tr : List ExtCall) :
    Except (List Run × List ExtCall) (List Run × List ExtCall) :=
  match tryCall env tr .getNewRuns with
  | none => .error (rl, tr)
  | some tr₁ => admitAll env env.newRuns (rl, tr₁)

/-- One tick of the `run` loop up to (but not including) the sleep:
admission, then the pass over `run_list` with `no_activity` reset to
`True`. `crashed` means an exception escaped and the sleep at the end of
the tick is never reached. -/
def tick (env : Env) (rl : List Run) : TickOut :=
  match get_incomplete_runs env rl [] with
  | .error (rl₁, tr₁) =>
    .crashed { runs := rl₁, noActivity := true, trace := tr₁, visited := [] }
  | .ok (rl₁, tr₁) =>
    processFrom env rl₁.length 0 { runs := rl₁, noActivity := true, trace := tr₁, visited := [] }

/-- The end-of-tick sleep computation (lines 226-247 of the source): the
idle counter is incremented on an idle tick and reset to 0 otherwise;
when it reaches 10 the sleep is `POLL_LONG_SLEEP` and the counter is
pinned back to 9, otherwise the sleep is `POLL_SHORT_SLEEP`. Returns
(sleep seconds, new counter). -/
def next_sleep_state (shortSleep longSleep : Nat) (counter : Nat) (noActivity : Bool) : Nat × Nat :=
  let c := if noActivity then counter + 1 else 0
  if c ≥ 10 then (longSleep, 9) else (shortSleep, c)

/-- Idle counter after `n` consecutive idle ticks starting from 0. -/
def idleCounterAfter (shortSleep longSleep : Nat) : Nat → Nat
  | 0 => 0
  | n + 1 => (next_sleep_state shortSleep longSleep (idleCounterAfter shortSleep longSleep n) true).2

/-- Sleep chosen by the n-th consecutive idle tick (1-indexed) starting
from counter 0: the counter seen by tick `n+1` is the one left by the
first `n` idle ticks. -/
def idleSleepAt (shortSleep longSleep : Nat) : Nat → Nat
  | 0 => shortSleep
  | n + 1 => (next_sleep_state shortSleep longSleep (idleCounterAfter shortSleep longSleep n) true).1

/-- One observable evolution step of a single run across ticks: some
environment's loop body keeps the run with a new state. -/
def RunStep (r r' : Run) : Prop :=
  ∃ env tr act tr', process_one env r tr = .kept r' act tr'

/-- The stages whose handler follows the uniform Branch-A/Branch-B
pattern with an Error failure target: every non-terminal stage of the
cascade except `final_staging` (whose two branches both target
`complete`) and except `compute_mbtiles_12` (which has no arm in the
cascade at all). Used only to state theorems. -/
def activeStages : List JobType :=
  [JobType.staging, JobType.obs_mod, JobType.run_geo_tiff, JobType.compute_mbtiles_0_9,
    JobType.compute_mbtiles_10, JobType.compute_mbtiles_11, JobType.load_geo_server]

/-- The per-stage running status checked by each cascade arm's Branch B
(tabulated from the cascade literals; used only to state theorems). -/
def runningStatusOf : JobType → Int
  | .staging => JobStatus.staging_running
  | .obs_mod => JobStatus.obs_mod_running
  | .run_geo_tiff => JobStatus.run_geo_tiff_running
  | .compute_mbtiles_0_9 => JobStatus.compute_mbtiles_0_9_running
  | .compute_mbtiles_10 => JobStatus.compute_mbtiles_10_running
  | .compute_mbtiles_11 => JobStatus.compute_mbtiles_11_running
  | .load_geo_server => JobStatus.load_geo_server_running
  | .final_staging => JobStatus.final_staging_running
  | _ => 0

/-- The successor stage assigned by each cascade arm's Branch-B success
path (tabulated from the cascade literals; used only to state
theorems). -/
def successorOf : JobType → JobType
  | .staging => .obs_mod
  | .obs_mod => .run_geo_tiff
  | .run_geo_tiff => .compute_mbtiles_0_9
  | .compute_mbtiles_0_9 => .load_geo_server
  | .compute_mbtiles_10 => .load_geo_server
  | .compute_mbtiles_11 => .load_geo_server
  | .load_geo_server => .final_staging
  | .final_staging => .complete
  | jt => jt

/-- The provenance fragment appended by each cascade arm's Branch-B
success path (tabulated from the cascade literals; used only to state
theorems). -/
def completeMarkerOf : JobType → String
  | .staging => ", Staging complete"
  | .obs_mod => ", Obs/Mod complete"
  | .run_geo_tiff => ", Geo tiff complete"
  | .compute_mbtiles_0_9 => ", Compute mbtiles zoom 0-9 complete"
  | .compute_mbtiles_10 => ", Compute mbtiles zoom 10 complete"
  | .compute_mbtiles_11 => ", Compute mbtiles zoom 11 complete"
  | .load_geo_server => ", Load geo server complete"
  | .final_staging => ", Final staging complete"
  | _ => ""

/-- A run record with fixed context values, used for concrete
counterexamples and witnesses. -/
def sampleRun (jt : JobType) (st : Int) : Run :=
  { id := 42
    jobType := jt
    status := st
    statusProv := "New, Run accepted"
    downloadurl := "http://x/f"
    gridname := "g1"
    instanceName := "inst-A" }

/-- Environment where no call raises, the store has no new runs, and
every inspected job is still active. -/
def stillActiveEnv : Env :=
  { newRuns := []
    find := fun _ => (some 1, "Running")
    raises := fun _ => false }

/-- Environment where no call raises, the store has no new runs, and
every inspected job has finished with a pod condition starting with
"Failed". -/
def podFailedEnv : Env :=
  { newRuns := []
    find := fun _ => (none, "Failed - BackoffLimitExceeded")
    raises := fun _ => false }

/-- Environment where no call raises, the store has no new runs, and
every inspected job has finished successfully. -/
def succeededEnv : Env :=
  { newRuns := []
    find := fun _ => (none, "Succeeded")
    raises := fun _ => false }

/-- Environment whose only raising call is the state-store fetch
`get_new_runs` performed by admission. -/
def crashingFetchEnv : Env :=
  { newRuns := []
    find := fun _ => (none, "Succeeded")
    raises := fun c => match c with | .getNewRuns => true | _ => false }

/-- Recognizes status-store writes in a trace. -/
def isUpdateStatus : ExtCall → Bool
  | .updateStatus _ _ => true
  | _ => false

/-- A run record with a chosen id, used to build concrete run tables. -/
def mkRun (n : Nat) (jt : JobType) (st : Int) : Run :=
  { id := n
    jobType := jt
    status := st
    statusProv := "New, Run accepted"
    downloadurl := "http://x/f"
    gridname := "g1"
    instanceName := "inst-A" }

theorem tryCall_reliable (env : Env) (h : reliableEnv env) (tr : List ExtCall) (c : ExtCall) :
    tryCall env tr c = some (tr ++ [c]) := by
  simp [tryCall, h c]

theorem branchA_reliable {env : Env} (h : reliableEnv env) (tr : List ExtCall) (run : Run)
    (st : Int) (mk : String) :
    branchA env tr run st mk =
      .ok ({ run with status := st, statusProv := run.statusProv ++ mk }, false,
        tr ++ [.k8sExec run.id run.jobType, .updateStatus run.id (run.statusProv ++ mk)]) := by
  simp [branchA, tryCall_reliable env h]

theorem branchB_reliable {env : Env} (h : reliableEnv env) (tr : List ExtCall) (run : Run)
    (succT : JobType) (succS : Int) (mk : String)
    (failT : JobType) (failS : Int) (failMsg : String) :
    branchB env tr run succT succS mk failT failS failMsg =
      (if (env.find run.id).1 = none ∧ ¬ py_startswith (env.find run.id).2 "Failed" then
        .ok ({ run with jobType := succT, status := succS, statusProv := run.statusProv ++ mk },
          false,
          tr ++ [.k8sFind run.id, .k8sDelete run.id, .updateStatus run.id (run.statusProv ++ mk)])
      else if py_startswith (env.find run.id).2 "Failed" then
        .ok ({ run with jobType := failT, status := failS }, false,
          tr ++ [.k8sFind run.id, .k8sDelete run.id,
            .slackPost (send_slack_msg run.id failMsg (some run.instanceName))])
      else .ok (run, false, tr ++ [.k8sFind run.id])) := by
  simp only [branchB, tryCall_reliable env h]
  split
  · simp
  · split <;> simp

theorem branchA_act {env : Env} {tr : List ExtCall} {run : Run} {st : Int} {mk : String}
    {r : Run} {b : Bool} {t : List ExtCall}
    (h : branchA env tr run st mk = .ok (r, b, t)) : b = false := by
  unfold branchA at h
  repeat' ((try dsimp only [] at h); split at h)
  all_goals simp_all

theorem branchB_act {env : Env} {tr : List ExtCall} {run : Run} {succT : JobType} {succS : Int}
    {mk : String} {failT : JobType} {failS : Int} {failMsg : String}
    {r : Run} {b : Bool} {t : List ExtCall}
    (h : branchB env tr run succT succS mk failT failS failMsg = .ok (r, b, t)) : b = false := by
  unfold branchB at h
  repeat' ((try dsimp only [] at h); split at h)
  all_goals simp_all

set_option maxHeartbeats 1600000 in
theorem handle_run_act {env : Env} {run : Run} {tr : List ExtCall}
    {r : Run} {b : Bool} {t : List ExtCall}
    (h : handle_run env run tr = .ok (r, b, t)) : b = false := by
  unfold handle_run at h
  split_ifs at h
  all_goals
    first
    | exact branchA_act h
    | exact branchB_act h
    | (cases h; rfl)

theorem branchB_failed {env : Env} (hrel : reliableEnv env) (tr : List ExtCall) (run : Run)
    (succT : JobType) (succS : Int) (mk : String)
    (failT : JobType) (failS : Int) (failMsg : String)
    (hf : py_startswith (env.find run.id).2 "Failed" = true) :
    branchB env tr run succT succS mk failT failS failMsg =
      .ok ({ run with jobType := failT, status := failS }, false,
        tr ++ [.k8sFind run.id, .k8sDelete run.id,
          .slackPost (send_slack_msg run.id failMsg (some run.instanceName))]) := by
  rw [branchB_reliable hrel]
  simp [hf]

/-- The `Complete` dispatch of the loop body under a reliable
environment: append the terminal fragment, write the store, send the
pass/fail notification, and remove the run. -/
theorem process_one_complete_reliable {env : Env} (hrel : reliableEnv env)
    (run : Run) (tr : List ExtCall) (hjt : run.jobType = JobType.complete) :
    process_one env run tr =
      .removed { run with statusProv := run.statusProv ++ ", Run complete" }
        (tr ++ [.updateStatus run.id (run.statusProv ++ ", Run complete"),
          .slackPost (send_slack_msg run.id
            (if find_missing (run.statusProv ++ ", Run complete") "Error" then
              "*completed successfully*."
            else
              "*completed unsuccessfully*.\nRun provenance: " ++
                (run.statusProv ++ ", Run complete") ++ ".")
            (some run.instanceName))]) := by
  unfold process_one
  simp [hjt, tryCall_reliable env hrel]

/-- The `Error` dispatch of the loop body under a reliable environment:
append "Error detected", write the store, rewrite to FinalStaging/New. -/
theorem process_one_error_reliable {env : Env} (hrel : reliableEnv env)
    (run : Run) (tr : List ExtCall) (hjt : run.jobType = JobType.error) :
    process_one env run tr =
      .kept { run with
          jobType := JobType.final_staging
          status := JobStatus.new
          statusProv := run.statusProv ++ ", Error detected" }
        none
        (tr ++ [.updateStatus run.id (run.statusProv ++ ", Error detected")]) := by
  unfold process_one
  simp [hjt, tryCall_reliable env hrel]

/-- Any loop-body outcome that keeps a run whose stage is `Error` leaves
it either still in `Error` (the status-store write raised and the guard
caught the exception) or rewritten to `FinalStaging`/`New`. -/
theorem process_one_error_cases {env : Env} {run r' : Run} {tr tr' : List ExtCall}
    {act : Option Bool} (hjt : run.jobType = JobType.error)
    (h : process_one env run tr = .kept r' act tr') :
    r'.jobType = JobType.error ∨
      (r'.jobType = JobType.final_staging ∧ r'.status = JobStatus.new) := by
  unfold process_one at h
  rw [hjt] at h
  simp only [reduceCtorEq, if_false, if_true] at h
  split at h
  · cases h
    left
    rfl
  · cases h
    right
    exact ⟨rfl, rfl⟩

/-- C2: a run whose stage is `Error` is handled by the next loop
dispatch by appending "Error detected" to its provenance, writing the
new provenance to the status store, and rewriting the run to stage
`FinalStaging` with stage status `New`; and along any evolution of a
single run, a run that is in the `Error` stage passes through
`FinalStaging`/`New` before it can reach the `Complete` stage. -/
theorem C2_error_redirects_to_cleanup :
    (∀ env run tr, reliableEnv env → run.jobType = JobType.error →
      process_one env run tr =
        .kept { run with
            jobType := JobType.final_staging
            status := JobStatus.new
            statusProv := run.statusProv ++ ", Error detected" }
          none
          (tr ++ [.updateStatus run.id (run.statusProv ++ ", Error detected")])) ∧
    (∀ r r', Relation.ReflTransGen RunStep r r' →
      r.jobType = JobType.error → r'.jobType = JobType.complete →
      ∃ m, Relation.ReflTransGen RunStep r m ∧ m.jobType = JobType.final_staging ∧
        m.status = JobStatus.new ∧ Relation.ReflTransGen RunStep m r') := by
  constructor
  · intro env run tr hrel hjt
    exact process_one_error_reliable hrel run tr hjt
  · intro r r' hsteps
    induction hsteps using Relation.ReflTransGen.head_induction_on with
    | refl =>
      intro hjt hcomp
      rw [hjt] at hcomp
      cases hcomp
    | head h' hrest ih =>
      intro hjt hcomp
      obtain ⟨env, tr, act, tr', heq⟩ := h'
      rcases process_one_error_cases hjt heq with hc | ⟨hc1, hc2⟩
      · obtain ⟨m, hm1, hm2, hm3, hm4⟩ := ih hc hcomp
        exact ⟨m, hm1.head ⟨env, tr, act, tr', heq⟩, hm2, hm3, hm4⟩
      · exact ⟨_, Relation.ReflTransGen.single ⟨env, tr, act, tr', heq⟩, hc1, hc2, hrest⟩

/-- Witness for C2 at a concrete input: the `Error` dispatch on a sample
run under a reliable environment. -/
theorem C2_error_redirects_to_cleanup_witness :
    process_one stillActiveEnv (sampleRun JobType.error JobStatus.error) [] =
      .kept { sampleRun JobType.error JobStatus.error with
          jobType := JobType.final_staging
          status := JobStatus.new
          statusProv := (sampleRun JobType.error JobStatus.error).statusProv ++ ", Error detected" }
        none
        [.updateStatus (sampleRun JobType.error JobStatus.error).id
          ((sampleRun JobType.error JobStatus.error).statusProv ++ ", Error detected")] :=
  C2_error_redirects_to_cleanup.1 stillActiveEnv (sampleRun JobType.error JobStatus.error) []
    (fun _ => rfl) rfl

/-- C4: the loop dispatch on a run whose stage is `Complete` appends
"Run complete" to the provenance, writes it to the status store, sends
exactly one notification — a success message iff the provenance contains
no "Error" substring, otherwise a failure message including the
provenance — and removes the run from the active table (shown both as
the dispatch outcome and as the list update the loop performs on a
singleton table). -/
theorem C4_complete_finalize :
    (∀ env run tr, reliableEnv env → run.jobType = JobType.complete →
      process_one env run tr =
        .removed { run with statusProv := run.statusProv ++ ", Run complete" }
          (tr ++ [.updateStatus run.id (run.statusProv ++ ", Run complete"),
            .slackPost (send_slack_msg run.id
              (if find_missing (run.statusProv ++ ", Run complete") "Error" then
                "*completed successfully*."
              else
                "*completed unsuccessfully*.\nRun provenance: " ++
                  (run.statusProv ++ ", Run complete") ++ ".")
              (some run.instanceName))])) ∧
    (∀ env run na tr vis, reliableEnv env → run.jobType = JobType.complete →
      processFrom env 1 0 { runs := [run], noActivity := na, trace := tr, visited := vis } =
        .ok { runs := []
              noActivity := na
              trace := tr ++ [.updateStatus run.id (run.statusProv ++ ", Run complete"),
                .slackPost (send_slack_msg run.id
                  (if find_missing (run.statusProv ++ ", Run complete") "Error" then
                    "*completed successfully*."
                  else
                    "*completed unsuccessfully*.\nRun provenance: " ++
                      (run.statusProv ++ ", Run complete") ++ ".")
                  (some run.instanceName))]
              visited := vis ++ [run] }) := by
  constructor
  · intro env run tr hrel hjt
    exact process_one_complete_reliable hrel run tr hjt
  · intro env run na tr vis hrel hjt
    unfold processFrom
    simp only [List.length_cons, List.length_nil, Nat.zero_lt_one, dif_pos, List.get]
    rw [process_one_complete_reliable hrel run tr hjt]
    simp [List.erase_cons_head, processFrom]

/-- Witness for C4 at a concrete input: finalizing a completed sample
run whose provenance contains no "Error" substring. -/
theorem C4_complete_finalize_witness :
    process_one stillActiveEnv (sampleRun JobType.complete JobStatus.final_staging_complete) [] =
      .removed { sampleRun JobType.complete JobStatus.final_staging_complete with
          statusProv :=
            (sampleRun JobType.complete JobStatus.final_staging_complete).statusProv ++
              ", Run complete" }
        [.updateStatus (sampleRun JobType.complete JobStatus.final_staging_complete).id
            ((sampleRun JobType.complete JobStatus.final_staging_complete).statusProv ++
              ", Run complete"),
          .slackPost (send_slack_msg (sampleRun JobType.complete JobStatus.final_staging_complete).id
            (if find_missing
                ((sampleRun JobType.complete JobStatus.final_staging_complete).statusProv ++
                  ", Run complete") "Error" then
              "*completed successfully*."
            else
              "*completed unsuccessfully*.\nRun provenance: " ++
                ((sampleRun JobType.complete JobStatus.final_staging_complete).statusProv ++
                  ", Run complete") ++ ".")
            (some (sampleRun JobType.complete JobStatus.final_staging_complete).instanceName))] :=
  C4_complete_finalize.1 stillActiveEnv (sampleRun JobType.complete JobStatus.final_staging_complete)
    [] (fun _ => rfl) rfl

/-- C5: admission of one fetched run under a reliable environment: with
all three required keys present in `run_data`, an entry with stage
`Staging`, stage status `New` and provenance "New, Run accepted" is
appended to the active table, that provenance is written to the store,
and an "accepted." notification is sent; with any required key missing,
the status "Error - Lacks the required run properties." is written, a
"lacked the required run properties." notification is sent, and the
active table is unchanged. -/
theorem C5_admission :
    ∀ env rl tr nr, reliableEnv env →
      ((dictHas nr.run_data "downloadurl" ∧ dictHas nr.run_data "adcirc.gridname" ∧
          dictHas nr.run_data "instancename") →
        admit_one env (rl, tr) nr =
          .ok (rl ++ [{ id := nr.run_id
                        jobType := JobType.staging
                        status := JobStatus.new
                        statusProv := "New, Run accepted"
                        downloadurl := dictGet nr.run_data "downloadurl"
                        gridname := dictGet nr.run_data "adcirc.gridname"
                        instanceName := dictGet nr.run_data "instancename" }],
            tr ++ [.updateStatus nr.run_id "New, Run accepted",
              .slackPost (send_slack_msg nr.run_id "accepted."
                (some (dictGet nr.run_data "instancename")))])) ∧
      (¬ (dictHas nr.run_data "downloadurl" ∧ dictHas nr.run_data "adcirc.gridname" ∧
          dictHas nr.run_data "instancename") →
        admit_one env (rl, tr) nr =
          .ok (rl,
            tr ++ [.updateStatus nr.run_id "Error - Lacks the required run properties.",
              .slackPost (send_slack_msg nr.run_id "lacked the required run properties."
                (if dictHas nr.run_data "instancename" then
                  some (dictGet nr.run_data "instancename")
                else none))])) := by
  intro env rl tr nr hrel
  constructor
  · intro hk
    unfold admit_one
    simp only [if_pos hk, tryCall_reliable env hrel]
    simp
  · intro hk
    unfold admit_one
    simp only [if_neg hk, tryCall_reliable env hrel]
    simp

/-- Witness for C5 at a concrete input: a fetched run carrying all three
required keys is admitted. -/
theorem C5_admission_witness :
    admit_one stillActiveEnv ([], [])
        { run_id := 7
          run_data := [("downloadurl", "http://x/f"), ("adcirc.gridname", "g1"),
            ("instancename", "inst-A")] } =
      .ok ([{ id := 7
              jobType := JobType.staging
              status := JobStatus.new
              statusProv := "New, Run accepted"
              downloadurl := dictGet [("downloadurl", "http://x/f"), ("adcirc.gridname", "g1"),
                ("instancename", "inst-A")] "downloadurl"
              gridname := dictGet [("downloadurl", "http://x/f"), ("adcirc.gridname", "g1"),
                ("instancename", "inst-A")] "adcirc.gridname"
              instanceName := dictGet [("downloadurl", "http://x/f"), ("adcirc.gridname", "g1"),
                ("instancename", "inst-A")] "instancename" }],
        [.updateStatus 7 "New, Run accepted",
          .slackPost (send_slack_msg 7 "accepted."
            (some (dictGet [("downloadurl", "http://x/f"), ("adcirc.gridname", "g1"),
              ("instancename", "inst-A")] "instancename")))]) :=
  (C5_admission stillActiveEnv [] []
      { run_id := 7
        run_data := [("downloadurl", "http://x/f"), ("adcirc.gridname", "g1"),
          ("instancename", "inst-A")] }
      (fun _ => rfl)).1 ⟨by decide, by decide, by decide⟩

theorem admit_one_ok (env : Env) (acc : List Run × List ExtCall) (nr : NewRun)
    (hupd : ∀ i p, env.raises (.updateStatus i p) = false)
    (hslack : ∀ s, env.raises (.slackPost s) = false) :
    ∃ acc', admit_one env acc nr = .ok acc' := by
  unfold admit_one
  split
  · simp [tryCall, hupd, hslack]
  · simp [tryCall, hupd, hslack]

theorem admitAll_ok (env : Env)
    (hupd : ∀ i p, env.raises (.updateStatus i p) = false)
    (hslack : ∀ s, env.raises (.slackPost s) = false) :
    ∀ (nrs : List NewRun) (acc : List Run × List ExtCall),
      ∃ acc', admitAll env nrs acc = .ok acc' := by
  intro nrs
  induction nrs with
  | nil => intro acc; exact ⟨acc, rfl⟩
  | cons nr rest ih =>
    intro acc
    obtain ⟨acc₁, h₁⟩ := admit_one_ok env acc nr hupd hslack
    obtain ⟨acc₂, h₂⟩ := ih acc₁
    exact ⟨acc₂, by simp [admitAll, h₁, h₂]⟩

theorem process_one_no_crash (env : Env) (run : Run) (tr : List ExtCall)
    (hupd : ∀ i p, env.raises (.updateStatus i p) = false)
    (hdel : ∀ i, env.raises (.k8sDelete i) = false) :
    (∃ r t, process_one env run tr = .removed r t) ∨
      (∃ r a t, process_one env run tr = .kept r a t) := by
  unfold process_one
  split_ifs with h₁ h₂
  · rcases hu : tryCall env tr (.updateStatus run.id (run.statusProv ++ ", Run complete")) with _ | tr₁
    · simp [hu]
    · simp only [hu]
      rcases hs : tryCall env tr₁ (.slackPost (send_slack_msg run.id
          (if find_missing (run.statusProv ++ ", Run complete") "Error" then
            "*completed successfully*."
          else
            "*completed unsuccessfully*.\nRun provenance: " ++
              (run.statusProv ++ ", Run complete") ++ ".")
          (some run.instanceName))) with _ | tr₂
      · simp [hs]
      · simp [hs]
  · rcases hu : tryCall env tr (.updateStatus run.id (run.statusProv ++ ", Error detected")) with _ | tr₁
    · simp [hu]
    · simp [hu]
  · rcases hh : handle_run env run tr with p | q
    · obtain ⟨r₁, tr₁⟩ := p
      simp only [hh]
      have hd : tryCall env tr₁ (.k8sDelete run.id) = some (tr₁ ++ [.k8sDelete run.id]) := by
        simp [tryCall, hdel]
      rw [hd]
      have hu : tryCall env (tr₁ ++ [.k8sDelete run.id])
          (.updateStatus run.id (r₁.statusProv ++ ", Run handler error detected")) =
            some ((tr₁ ++ [.k8sDelete run.id]) ++
              [.updateStatus run.id (r₁.statusProv ++ ", Run handler error detected")]) := by
        simp [tryCall, hupd]
      simp [hu]
    · obtain ⟨r₁, b, tr₁⟩ := q
      simp [hh]

theorem processFrom_ok (env : Env)
    (hupd : ∀ i p, env.raises (.updateStatus i p) = false)
    (hdel : ∀ i, env.raises (.k8sDelete i) = false) :
    ∀ (fuel idx : Nat) (s : TickState), ∃ s', processFrom env fuel idx s = .ok s' := by
  intro fuel
  induction fuel with
  | zero => intro idx s; exact ⟨s, rfl⟩
  | succ f ih =>
    intro idx s
    unfold processFrom
    split
    · dsimp only []
      rcases process_one_no_crash env (s.runs.get ⟨idx, by assumption⟩) s.trace hupd hdel with
        ⟨r, t, hr⟩ | ⟨r, a, t, hr⟩
      · rw [hr]
        exact ih (idx + 1) _
      · rw [hr]
        exact ih (idx + 1) _
    · exact ⟨s, rfl⟩

/-- C6 counterexample: an exception raised by the state-store fetch
inside admission escapes the reconciliation loop, so the tick never
reaches its sleep — refuting the claim that no exception raised during a
tick (including admission exceptions) escapes. -/
theorem C6_counterexample :
    tick crashingFetchEnv [] =
      .crashed { runs := [], noActivity := true, trace := [], visited := [] } := rfl

/-- C6 amended: exceptions raised inside the per-run dispatches and
stage handlers (job submission, job inspection, in-loop notifications)
are caught by the loop's guards and the tick reaches its sleep, provided
the status-store writes and job deletions performed by the recovery
paths succeed and admission itself does not raise; an exception raised
during admission (the state-store fetch, the admission status write, or
the admission notification) escapes the loop, as `C6_counterexample`
shows. -/
theorem C6_amended :
    ∀ env rl, env.raises ExtCall.getNewRuns = false →
      (∀ i p, env.raises (.updateStatus i p) = false) →
      (∀ i, env.raises (.k8sDelete i) = false) →
      (env.newRuns = [] ∨ ∀ s, env.raises (.slackPost s) = false) →
      ∃ s, tick env rl = .ok s := by
  intro env rl hget hupd hdel hadm
  unfold tick get_incomplete_runs
  have hg : tryCall env [] .getNewRuns = some [ExtCall.getNewRuns] := by
    simp [tryCall, hget]
  rw [hg]
  have hadm' : ∃ acc', admitAll env env.newRuns (rl, [ExtCall.getNewRuns]) = .ok acc' := by
    rcases hadm with hempty | hslack
    · rw [hempty]
      exact ⟨_, rfl⟩
    · exact admitAll_ok env hupd hslack _ _
  obtain ⟨⟨rl₁, tr₁⟩, hok⟩ := hadm'
  dsimp only []
  rw [hok]
  exact processFrom_ok env hupd hdel _ _ _

/-- Witness for C6 amended at a concrete input: a tick in a reliable
environment with no new runs reaches its sleep normally. -/
theorem C6_amended_witness :
    tick stillActiveEnv [] =
      .ok { runs := [], noActivity := true, trace := [ExtCall.getNewRuns], visited := [] } := by
  obtain ⟨s, hs⟩ := C6_amended stillActiveEnv [] rfl (fun _ _ => rfl) (fun _ => rfl) (Or.inl rfl)
  exact rfl

/-- C8: a run in stage `FinalStaging` with the stage's running status
whose pod condition starts with "Failed" still transitions to stage
`Complete` with status `final_staging_complete` (not to `Error`), and
the operator notification sent for that failure carries the warning that
intermediate files may not have been removed. -/
theorem C8_cleanup_failure_completes :
    ∀ env run tr, reliableEnv env → run.jobType = JobType.final_staging →
      run.status = JobStatus.final_staging_running →
      py_startswith (env.find run.id).2 "Failed" = true →
      handle_run env run tr =
        .ok ({ run with jobType := JobType.complete, status := JobStatus.final_staging_complete },
          false,
          tr ++ [.k8sFind run.id, .k8sDelete run.id,
            .slackPost (send_slack_msg run.id
              "failed in final-staging. *Warning: Intermediate files may not have been removed.*"
              (some run.instanceName))]) ∧
      find_missing
        "failed in final-staging. *Warning: Intermediate files may not have been removed.*"
        "Intermediate files may not have been removed" = false := by
  intro env run tr hrel hjt hst hf
  refine ⟨?_, by decide⟩
  unfold handle_run
  simp only [hjt, hst, JobStatus.new, JobStatus.final_staging_running, JobStatus.error,
    reduceCtorEq, if_false]
  norm_num
  rw [branchB_failed hrel tr run JobType.complete JobStatus.final_staging_complete
    ", Final staging complete" JobType.complete JobStatus.final_staging_complete
    "failed in final-staging. *Warning: Intermediate files may not have been removed.*" hf]

/-- Witness for C8 at a concrete input: a sample FinalStaging run in an
environment reporting a failed pod. -/
theorem C8_cleanup_failure_completes_witness :
    handle_run podFailedEnv (sampleRun JobType.final_staging JobStatus.final_staging_running) [] =
      .ok ({ sampleRun JobType.final_staging JobStatus.final_staging_running with
          jobType := JobType.complete, status := JobStatus.final_staging_complete },
        false,
        [.k8sFind 42, .k8sDelete 42,
          .slackPost (send_slack_msg 42
            "failed in final-staging. *Warning: Intermediate files may not have been removed.*"
            (some "inst-A"))]) ∧
      find_missing
        "failed in final-staging. *Warning: Intermediate files may not have been removed.*"
        "Intermediate files may not have been removed" = false :=
  C8_cleanup_failure_completes podFailedEnv
    (sampleRun JobType.final_staging JobStatus.final_staging_running) []
    (fun _ => rfl) rfl rfl (by decide)

/-- C9 counterexample: the cascade has no arm for `compute_mbtiles_12`,
so a run in that stage is left completely unchanged — no job inspection,
no effect, no advancement to `LoadGeoServer` — even in an environment
where its job has completed successfully. -/
theorem C9_counterexample :
    handle_run succeededEnv
        (sampleRun JobType.compute_mbtiles_12 JobStatus.compute_mbtiles_12_running) [] =
      .ok (sampleRun JobType.compute_mbtiles_12 JobStatus.compute_mbtiles_12_running,
        false, []) := rfl

/-- C9 amended: `Mbtiles10` and `Mbtiles11` each have a cascade arm and,
on successful completion of their stage job, independently advance to
stage `LoadGeoServer` with stage status `New`; `Mbtiles12`, though
declared in both enums, has no arm in the cascade, and a run in that
stage is returned unchanged with no external call under every
environment. -/
theorem C9_mbtiles_handlers :
    (∀ env run tr, reliableEnv env →
      (run.jobType = JobType.compute_mbtiles_10 ∨ run.jobType = JobType.compute_mbtiles_11) →
      run.status = runningStatusOf run.jobType →
      (env.find run.id).1 = none →
      py_startswith (env.find run.id).2 "Failed" = false →
      handle_run env run tr =
        .ok ({ run with
            jobType := JobType.load_geo_server
            status := JobStatus.new
            statusProv := run.statusProv ++ completeMarkerOf run.jobType },
          false,
          tr ++ [.k8sFind run.id, .k8sDelete run.id,
            .updateStatus run.id (run.statusProv ++ completeMarkerOf run.jobType)])) ∧
    (∀ env run tr, run.jobType = JobType.compute_mbtiles_12 →
      handle_run env run tr = .ok (run, false, tr)) := by
  constructor
  · intro env run tr hrel hjt hst hf1 hf2
    rcases hjt with hjt | hjt
    · rw [hjt] at hst
      unfold handle_run
      simp only [hjt, hst, runningStatusOf, JobStatus.new, JobStatus.compute_mbtiles_10_running,
        JobStatus.error, reduceCtorEq, if_false]
      norm_num
      rw [branchB_reliable hrel]
      simp [hf1, hf2, hjt, completeMarkerOf]
    · rw [hjt] at hst
      unfold handle_run
      simp only [hjt, hst, runningStatusOf, JobStatus.new, JobStatus.compute_mbtiles_11_running,
        JobStatus.error, reduceCtorEq, if_false]
      norm_num
      rw [branchB_reliable hrel]
      simp [hf1, hf2, hjt, completeMarkerOf]
  · intro env run tr hjt
    unfold handle_run
    simp [hjt]

/-- Witness for C9 amended at a concrete input: a `Mbtiles12` run is
returned unchanged. -/
theorem C9_mbtiles_handlers_witness :
    handle_run stillActiveEnv (sampleRun JobType.compute_mbtiles_12 JobStatus.new) [] =
      .ok (sampleRun JobType.compute_mbtiles_12 JobStatus.new, false, []) :=
  C9_mbtiles_handlers.2 stillActiveEnv (sampleRun JobType.compute_mbtiles_12 JobStatus.new) [] rfl

theorem idleCounterAfter_eq (s l n : Nat) : idleCounterAfter s l n = min n 9 := by
  induction n with
  | zero => simp [idleCounterAfter]
  | succ n ih =>
    simp only [idleCounterAfter, ih, next_sleep_state]
    split_ifs <;> omega

/-- C7 counterexample: a tick over a single run whose job is still
active performs no state change at all (the run table is returned
unchanged), yet the activity flag is set (`noActivity = false`, since
`handle_run` initializes `no_activity = False` and never assigns
`True`) — refuting the claim that the flag is set exactly when some run
underwent a state-changing transition. -/
theorem C7_counterexample :
    tick stillActiveEnv [sampleRun JobType.staging JobStatus.staging_running] =
      .ok { runs := [sampleRun JobType.staging JobStatus.staging_running]
            noActivity := false
            trace := [.getNewRuns, .k8sFind 42]
            visited := [sampleRun JobType.staging JobStatus.staging_running] } := rfl

/-- C7 amended: the per-tick activity flag is claimed by every run that
is dispatched to a stage handler and returns normally — `handle_run`
reports activity (`no_activity = false`) on every normal return,
whether or not the run's state changed; the idle counter and sleep then
behave as specified: starting from 0, `n` consecutive idle ticks leave
the counter at `min n 9`, the n-th consecutive idle tick sleeps
`POLL_SHORT_SLEEP` for n ≤ 9 and `POLL_LONG_SLEEP` from the tenth tick
on (the counter stays pinned at 9), and any non-idle tick makes the
next sleep `POLL_SHORT_SLEEP` with the counter reset to 0. -/
theorem C7_activity_and_backoff :
    (∀ env run tr r b t, handle_run env run tr = .ok (r, b, t) → b = false) ∧
    (∀ s l n, idleCounterAfter s l n = min n 9) ∧
    (∀ s l n, idleSleepAt s l (n + 1) = if n + 1 ≤ 9 then s else l) ∧
    (∀ s l c, next_sleep_state s l c false = (s, 0)) := by
  refine ⟨fun env run tr r b t h => handle_run_act h, idleCounterAfter_eq, ?_, fun s l c => rfl⟩
  intro s l n
  simp only [idleSleepAt, idleCounterAfter_eq, next_sleep_state]
  split_ifs <;> first | rfl | omega

/-- Witness for C7 amended at a concrete input: the fall-through of
`handle_run` on a stage with no arm still reports activity. -/
theorem C7_activity_and_backoff_witness :
    handle_run stillActiveEnv (sampleRun JobType.other_1 JobStatus.new) [] =
      .ok (sampleRun JobType.other_1 JobStatus.new, false, []) ∧ false = false :=
  ⟨rfl, C7_activity_and_backoff.1 stillActiveEnv (sampleRun JobType.other_1 JobStatus.new) []
    (sampleRun JobType.other_1 JobStatus.new) false [] rfl⟩

/-- C1 counterexample: `FinalStaging` is a non-terminal stage, but its
Branch B on a "Failed" pod condition transitions the run to
`Complete`/`final_staging_complete`, not to `Error`/`Failed` as the
claim requires for every non-terminal stage. -/
theorem C1_counterexample :
    handle_run podFailedEnv (sampleRun JobType.final_staging JobStatus.final_staging_running) [] =
      .ok ({ sampleRun JobType.final_staging JobStatus.final_staging_running with
          jobType := JobType.complete, status := JobStatus.final_staging_complete },
        false,
        [.k8sFind 42, .k8sDelete 42,
          .slackPost "APSViz Supervisor - Instance name: inst-A, Run ID: 42 failed in final-staging. *Warning: Intermediate files may not have been removed.*"]) ∧
      (JobType.complete == JobType.error) = false :=
  ⟨rfl, rfl⟩

/-- C1 amended: for every run in one of the seven non-terminal stages
whose handler follows the uniform pattern (all of them except
`FinalStaging`, whose failure branch goes to `Complete` as `C8` shows,
and except `Mbtiles12`, which has no handler), with the stage's running
status, one tick of the handler behaves as claimed: if the job is no
longer active and the pod condition does not start with "Failed", the
job is deleted, the run advances to the stage's successor with status
`New`, the complete marker is appended and the store updated; if the
pod condition starts with "Failed", the job is deleted, a
"failed in <stage>" notification is sent and the run moves to
`Error`/`Failed` with no store write; otherwise nothing changes. -/
theorem C1_running_stage_tick :
    ∀ env run tr, reliableEnv env → run.jobType ∈ activeStages →
      run.status = runningStatusOf run.jobType →
      handle_run env run tr =
        (if (env.find run.id).1 = none ∧ ¬ py_startswith (env.find run.id).2 "Failed" then
          .ok ({ run with
              jobType := successorOf run.jobType
              status := JobStatus.new
              statusProv := run.statusProv ++ completeMarkerOf run.jobType },
            false,
            tr ++ [.k8sFind run.id, .k8sDelete run.id,
              .updateStatus run.id (run.statusProv ++ completeMarkerOf run.jobType)])
        else if py_startswith (env.find run.id).2 "Failed" then
          .ok ({ run with jobType := JobType.error, status := JobStatus.error }, false,
            tr ++ [.k8sFind run.id, .k8sDelete run.id,
              .slackPost (send_slack_msg run.id ("failed in " ++ run.jobType.toStr ++ ".")
                (some run.instanceName))])
        else .ok (run, false, tr ++ [.k8sFind run.id])) := by
  intro env run tr hrel hmem hst
  simp only [activeStages, List.mem_cons, List.not_mem_nil, or_false] at hmem
  rcases hmem with hjt | hjt | hjt | hjt | hjt | hjt | hjt <;>
    rw [hjt] at hst <;>
    unfold handle_run <;>
    simp only [hjt, hst, runningStatusOf, JobStatus.new, JobStatus.staging_running,
      JobStatus.obs_mod_running, JobStatus.run_geo_tiff_running,
      JobStatus.compute_mbtiles_0_9_running, JobStatus.compute_mbtiles_10_running,
      JobStatus.compute_mbtiles_11_running, JobStatus.load_geo_server_running,
      JobStatus.error, reduceCtorEq, if_false] <;>
    norm_num <;>
    rw [branchB_reliable hrel] <;>
    simp [hjt, successorOf, completeMarkerOf, JobType.toStr]

/-- Witness for C1 amended at a concrete input: a Staging run whose job
finished successfully advances to ObsMod/New. -/
theorem C1_running_stage_tick_witness :
    handle_run succeededEnv (sampleRun JobType.staging JobStatus.staging_running) [] =
      .ok ({ sampleRun JobType.staging JobStatus.staging_running with
          jobType := JobType.obs_mod
          status := JobStatus.new
          statusProv := "New, Run accepted, Staging complete" },
        false,
        [.k8sFind 42, .k8sDelete 42, .updateStatus 42 "New, Run accepted, Staging complete"]) := by
  have h := C1_running_stage_tick succeededEnv (sampleRun JobType.staging JobStatus.staging_running)
    [] (fun _ => rfl) (by decide) rfl
  rw [h]
  rfl

theorem branchA_write {env : Env} {tr : List ExtCall} {run : Run} {st : Int} {mk : String}
    {r' : Run} {b : Bool} {tr' : List ExtCall} (hrel : reliableEnv env)
    (h : branchA env tr run st mk = .ok (r', b, tr')) :
    ExtCall.updateStatus run.id r'.statusProv ∈ tr' := by
  rw [branchA_reliable hrel] at h
  cases h
  simp

theorem branchB_write {env : Env} {tr : List ExtCall} {run : Run} {succT : JobType} {succS : Int}
    {mk : String} {failT : JobType} {failS : Int} {fm : String}
    {r' : Run} {b : Bool} {tr' : List ExtCall} (hrel : reliableEnv env)
    (h : branchB env tr run succT succS mk failT failS fm = .ok (r', b, tr'))
    (hchange : r'.jobType ≠ run.jobType ∨ r'.status ≠ run.status)
    (hnf : ¬ py_startswith (env.find run.id).2 "Failed") :
    ExtCall.updateStatus run.id r'.statusProv ∈ tr' := by
  rw [branchB_reliable hrel] at h
  split at h
  · cases h
    simp
  · cases h
    rcases hchange with hc | hc <;> exact absurd rfl hc

theorem branchB_failure_nowrite {env : Env} {tr : List ExtCall} {run : Run} {succT : JobType}
    {succS : Int} {mk : String} {failT : JobType} {failS : Int} {fm : String}
    {r' : Run} {b : Bool} {tr' : List ExtCall} (hrel : reliableEnv env)
    (hf : py_startswith (env.find run.id).2 "Failed" = true)
    (h : branchB env tr run succT succS mk failT failS fm = .ok (r', b, tr')) :
    r'.statusProv = run.statusProv ∧
      tr' = tr ++ [.k8sFind run.id, .k8sDelete run.id,
        .slackPost (send_slack_msg run.id fm (some run.instanceName))] := by
  rw [branchB_failed hrel tr run succT succS mk failT failS fm hf] at h
  cases h
  exact ⟨rfl, rfl⟩

/-- C3 counterexample: the pod-failure transition of the Staging stage
changes the run's stage to `Error` but performs no status-store write at
all (and appends nothing to the provenance) — refuting the claim that
every transition is accompanied by a status-store write. -/
theorem C3_counterexample :
    (handle_run podFailedEnv (sampleRun JobType.staging JobStatus.staging_running) [] =
      .ok ({ sampleRun JobType.staging JobStatus.staging_running with
          jobType := JobType.error, status := JobStatus.error },
        false,
        [.k8sFind 42, .k8sDelete 42,
          .slackPost "APSViz Supervisor - Instance name: inst-A, Run ID: 42 failed in staging."])) ∧
    ([.k8sFind 42, .k8sDelete 42,
      .slackPost "APSViz Supervisor - Instance name: inst-A, Run ID: 42 failed in staging."] :
        List ExtCall).filter isUpdateStatus = [] :=
  ⟨rfl, rfl⟩

set_option maxHeartbeats 1600000 in
/-- C3 amended: every state-changing transition performed by a stage
handler is accompanied by a status-store write of the run's updated
provenance, except the pod-failure transitions (Branch B taken with a
pod condition starting with "Failed"): those transitions delete the job
and notify but write nothing to the status store and leave the
provenance unchanged — their store write happens only on the next tick,
via the `Error` dispatch (or, for `FinalStaging`, via the `Complete`
dispatch). -/
theorem C3_transition_writes :
    (∀ env run tr r' b tr', reliableEnv env →
      handle_run env run tr = .ok (r', b, tr') →
      (r'.jobType ≠ run.jobType ∨ r'.status ≠ run.status) →
      (run.status = JobStatus.new ∨ ¬ py_startswith (env.find run.id).2 "Failed") →
      ExtCall.updateStatus run.id r'.statusProv ∈ tr') ∧
    (∀ env run tr r' b tr', reliableEnv env →
      run.status ≠ JobStatus.new →
      py_startswith (env.find run.id).2 "Failed" = true →
      handle_run env run tr = .ok (r', b, tr') →
      r'.statusProv = run.statusProv ∧
        ∀ i p, ExtCall.updateStatus i p ∉ tr'.drop tr.length) := by
  constructor
  · intro env run tr r' b tr' hrel h hchange hnew
    unfold handle_run at h
    split_ifs at h
    all_goals
      first
      | exact branchA_write hrel h
      | exact branchB_write hrel h hchange (hnew.resolve_left (by assumption))
      | (cases h; rcases hchange with hc | hc <;> exact absurd rfl hc)
  · intro env run tr r' b tr' hrel hsnew hf h
    unfold handle_run at h
    split_ifs at h
    all_goals
      first
      | exact absurd (by assumption) hsnew
      | (obtain ⟨h1, h2⟩ := branchB_failure_nowrite hrel hf h
         subst h2
         refine ⟨h1, ?_⟩
         intro i p hmem
         rw [List.drop_left] at hmem
         simp only [List.mem_cons, List.not_mem_nil, or_false] at hmem
         rcases hmem with hm | hm | hm <;> cases hm)
      | (cases h
         refine ⟨rfl, ?_⟩
         intro i p hmem
         rw [List.drop_length] at hmem
         cases hmem)

/-- Witness for C3 amended at a concrete input: the ObsMod pod-failure
transition writes nothing and keeps the provenance. -/
theorem C3_transition_writes_witness :
    (sampleRun JobType.error JobStatus.error).statusProv =
        (sampleRun JobType.obs_mod JobStatus.obs_mod_running).statusProv ∧
      ∀ i p, ExtCall.updateStatus i p ∉
        ([.k8sFind 42, .k8sDelete 42,
          .slackPost "APSViz Supervisor - Instance name: inst-A, Run ID: 42 failed in obs-mod."] :
          List ExtCall).drop ([] : List ExtCall).length := by
  have h := C3_transition_writes.2 podFailedEnv
    (sampleRun JobType.obs_mod JobStatus.obs_mod_running) []
    ({ sampleRun JobType.obs_mod JobStatus.obs_mod_running with
      jobType := JobType.error, status := JobStatus.error }) false
    [.k8sFind 42, .k8sDelete 42,
      .slackPost "APSViz Supervisor - Instance name: inst-A, Run ID: 42 failed in obs-mod."]
    (fun _ => rfl) (by decide) rfl rfl
  exact ⟨h.1, h.2⟩

theorem mem_drop_of_le {α : Type} {l : List α} {m n : Nat} (h : n ≤ m) {y : α}
    (hy : y ∈ l.drop m) : y ∈ l.drop n := by
  have heq : l.drop m = (l.drop n).drop (m - n) := by
    rw [List.drop_drop]
    congr 1
    omega
  rw [heq] at hy
  exact List.drop_subset _ _ hy

theorem mem_drop_erase {α : Type} [DecidableEq α] {x y : α} :
    ∀ (l : List α) (j : Nat), y ∈ (l.erase x).drop (j + 1) → y ∈ l.drop j := by
  intro l
  induction l with
  | nil => intro j hy; simp at hy
  | cons a t ih =>
    intro j hy
    by_cases hax : a = x
    · subst hax
      rw [List.erase_cons_head] at hy
      cases j with
      | zero => exact List.mem_cons_of_mem _ (List.drop_subset _ _ hy)
      | succ k =>
        show y ∈ t.drop k
        exact mem_drop_of_le (by omega) hy
    · rw [List.erase_cons_tail (by simp [hax])] at hy
      cases j with
      | zero =>
        have : y ∈ t.erase x := List.drop_subset _ _ hy
        exact List.mem_cons_of_mem _ (List.erase_subset _ _ this)
      | succ k => exact ih k hy

theorem drop_set_of_lt {α : Type} :
    ∀ (l : List α) (i : Nat) (a : α) (j : Nat), i < j → (l.set i a).drop j = l.drop j := by
  intro l
  induction l with
  | nil => intro i a j _; simp
  | cons b t ih =>
    intro i a j hij
    cases i with
    | zero =>
      cases j with
      | zero => omega
      | succ k => simp [List.set]
    | succ i' =>
      cases j with
      | zero => omega
      | succ k =>
        simp only [List.set, List.drop_succ_cons]
        exact ih i' a k (by omega)

theorem erase_eq_eraseIdx_at {α : Type} [DecidableEq α] :
    ∀ (l : List α) (i : Nat) (x : α) (hi : i < l.length),
      (∀ k (hk : k < i), l.get ⟨k, Nat.lt_trans hk hi⟩ ≠ x) →
      l.get ⟨i, hi⟩ = x → l.erase x = l.eraseIdx i := by
  intro l
  induction l with
  | nil => intro i x hi; simp at hi
  | cons a t ih =>
    intro i x hi hbefore hat
    cases i with
    | zero =>
      simp only [List.get] at hat
      subst hat
      rw [List.erase_cons_head]
      rfl
    | succ i' =>
      have hax : a ≠ x := hbefore 0 (Nat.succ_pos i')
      rw [List.erase_cons_tail (by simp [hax])]
      simp only [List.eraseIdx]
      congr 1
      exact ih i' x (Nat.lt_of_succ_lt_succ hi)
        (fun k hk => hbefore (k + 1) (Nat.succ_lt_succ hk)) hat

theorem eraseIdx_set_same {α : Type} :
    ∀ (l : List α) (i : Nat) (a : α), (l.set i a).eraseIdx i = l.eraseIdx i := by
  intro l
  induction l with
  | nil => intro i a; simp
  | cons b t ih =>
    intro i a
    cases i with
    | zero => rfl
    | succ i' =>
      simp only [List.set, List.eraseIdx]
      congr 1
      exact ih i' a

theorem drop_eraseIdx_succ {α : Type} :
    ∀ (l : List α) (i : Nat), (l.eraseIdx i).drop (i + 1) = l.drop (i + 2) := by
  intro l
  induction l with
  | nil => intro i; simp
  | cons a t ih =>
    intro i
    cases i with
    | zero => rfl
    | succ i' =>
      simp only [List.eraseIdx, List.drop_succ_cons]
      exact ih i'

theorem process_one_removed_id {env : Env} {run : Run} {tr : List ExtCall} {r : Run}
    {t : List ExtCall} (h : process_one env run tr = .removed r t) : r.id = run.id := by
  unfold process_one at h
  split_ifs at h
  all_goals repeat' ((try dsimp only [] at h); split at h)
  all_goals cases h <;> rfl

theorem visited_ids_subset (env : Env) :
    ∀ (fuel idx : Nat) (s : TickState) (y : Run),
      y ∈ (processFrom env fuel idx s).visitedOf →
      y.id ∈ s.visited.map Run.id ∨ y.id ∈ (s.runs.drop idx).map Run.id := by
  intro fuel
  induction fuel with
  | zero =>
    intro idx s y hy
    left
    exact List.mem_map_of_mem Run.id hy
  | succ f ih =>
    intro idx s y hy
    unfold processFrom at hy
    by_cases hlt : idx < s.runs.length
    · rw [dif_pos hlt] at hy
      dsimp only [] at hy
      have hrunmem : s.runs.get ⟨idx, hlt⟩ ∈ s.runs.drop idx := by
        rw [List.drop_eq_getElem_cons hlt]
        exact List.mem_cons_self _ _
      have hvis : y.id ∈ (s.visited ++ [s.runs.get ⟨idx, hlt⟩]).map Run.id →
          y.id ∈ s.visited.map Run.id ∨ y.id ∈ (s.runs.drop idx).map Run.id := by
        intro hv
        rw [List.map_append, List.mem_append] at hv
        rcases hv with hv | hv
        · exact Or.inl hv
        · right
          simp only [List.map_cons, List.map_nil, List.mem_singleton] at hv
          rw [hv]
          exact List.mem_map_of_mem Run.id hrunmem
      cases hp : process_one env (s.runs.get ⟨idx, hlt⟩) s.trace with
      | removed r₁ tr₁ =>
        rw [hp] at hy
        rcases ih (idx + 1) _ y hy with hv | hr
        · exact hvis hv
        · right
          simp only [List.mem_map] at hr
          obtain ⟨z, hz, hzy⟩ := hr
          have hz' : z ∈ (s.runs.set idx r₁).drop idx := mem_drop_erase _ idx hz
          rw [List.drop_eq_getElem_cons (by simpa using hlt)] at hz'
          rcases List.mem_cons.mp hz' with hz1 | hz2
          · subst hz1
            rw [← hzy, List.getElem_set_self]
            rw [process_one_removed_id hp]
            exact List.mem_map_of_mem Run.id hrunmem
          · rw [drop_set_of_lt _ _ _ _ (Nat.lt_succ_self idx)] at hz2
            rw [← hzy]
            exact List.mem_map_of_mem Run.id (mem_drop_of_le (Nat.le_succ idx) hz2)
      | kept r₁ act tr₁ =>
        rw [hp] at hy
        rcases ih (idx + 1) _ y hy with hv | hr
        · exact hvis hv
        · right
          rw [drop_set_of_lt _ _ _ _ (Nat.lt_succ_self idx)] at hr
          simp only [List.mem_map] at hr
          obtain ⟨z, hz, hzy⟩ := hr
          rw [← hzy]
          exact List.mem_map_of_mem Run.id (mem_drop_of_le (Nat.le_succ idx) hz)
      | crashed r₁ tr₁ =>
        rw [hp] at hy
        dsimp only [TickOut.visitedOf] at hy
        exact hvis (List.mem_map_of_mem Run.id hy)
    · rw [dif_neg hlt] at hy
      left
      exact List.mem_map_of_mem Run.id hy

/-- C10: when the loop's iterator stands on position `i` of the current
run table and the run there has stage `Complete` (so the dispatch under
a reliable environment removes it from the table), the run occupying
position `i + 1` at that moment is never yielded by the iterator during
the remainder of the pass: the internal index has already advanced past
the position into which that run shifts, so it is evaluated no earlier
than the next tick. (Positions of surviving entries never increase
during a pass, so a run at position `i + 1` at this moment also cannot
have been yielded earlier in the pass.) -/
theorem C10_removal_skips_successor :
    ∀ env (l : List Run) (i : Nat) (hi : i + 1 < l.length) (na : Bool) (tr : List ExtCall)
      (fuel : Nat), reliableEnv env →
      (l.get ⟨i, Nat.lt_of_succ_lt hi⟩).jobType = JobType.complete →
      List.Pairwise (fun a b => a.id ≠ b.id) l →
      (l.get ⟨i + 1, hi⟩).id ∉
        ((processFrom env fuel i
            { runs := l, noActivity := na, trace := tr, visited := [] }).visitedOf).map Run.id := by
  intro env l i hi na tr fuel hrel hcomp hpw hmem
  have hlt : i < l.length := Nat.lt_of_succ_lt hi
  have hpw' := List.pairwise_iff_getElem.mp hpw
  cases fuel with
  | zero => simp [processFrom, TickOut.visitedOf] at hmem
  | succ f =>
    unfold processFrom at hmem
    rw [dif_pos hlt] at hmem
    dsimp only [] at hmem
    rw [process_one_complete_reliable hrel _ tr hcomp] at hmem
    rw [List.mem_map] at hmem
    obtain ⟨y, hyvis, hyid⟩ := hmem
    rcases visited_ids_subset env f (i + 1) _ y hyvis with hv | hr
    · dsimp only [] at hv
      simp only [List.nil_append, List.map_cons, List.map_nil, List.mem_singleton] at hv
      have hne := hpw' i (i + 1) hlt hi (Nat.lt_succ_self i)
      simp only [List.get_eq_getElem] at hyid hv
      exact hne (by rw [← hv]; exact hyid)
    · dsimp only [] at hr
      have hrw : ∀ r₁ : Run, r₁.id = (l.get ⟨i, hlt⟩).id →
          (l.set i r₁).erase r₁ = l.eraseIdx i := by
        intro r₁ hid
        have h1 : (l.set i r₁).erase r₁ = (l.set i r₁).eraseIdx i := by
          apply erase_eq_eraseIdx_at (l.set i r₁) i r₁ (by simpa using hlt)
          · intro k hk heq
            have hg : (l.set i r₁).get ⟨k, Nat.lt_trans hk (by simpa using hlt)⟩ =
                l.get ⟨k, Nat.lt_trans hk hlt⟩ := by
              simp only [List.get_eq_getElem]
              exact List.getElem_set_of_ne (by omega) r₁ (by simpa using Nat.lt_trans hk hlt)
            rw [hg] at heq
            have hne := hpw' k i (Nat.lt_trans hk hlt) hlt hk
            apply hne
            have hth : (l.get ⟨k, Nat.lt_trans hk hlt⟩).id = r₁.id := by rw [heq]
            rw [hid] at hth
            simpa using hth
          · simp only [List.get_eq_getElem]
            exact List.getElem_set_self _
        rw [h1, eraseIdx_set_same]
      rw [hrw { l.get ⟨i, hlt⟩ with
            statusProv := (l.get ⟨i, hlt⟩).statusProv ++ ", Run complete" } rfl,
        drop_eraseIdx_succ] at hr
      rw [List.mem_map] at hr
      obtain ⟨z, hz, hzy⟩ := hr
      rw [List.mem_iff_getElem] at hz
      obtain ⟨k, hk, hzk⟩ := hz
      have hk' : i + 2 + k < l.length := by
        rw [List.length_drop] at hk
        omega
      have hgz : z = l.get ⟨i + 2 + k, hk'⟩ := by
        rw [← hzk]
        simp [List.getElem_drop]
      have hne := hpw' (i + 1) (i + 2 + k) hi hk' (by omega)
      apply hne
      have e1 : (l.get ⟨i + 1, hi⟩).id = y.id := hyid.symm
      have e2 : y.id = z.id := hzy.symm
      simp only [List.get_eq_getElem] at e1 e2 hgz
      rw [e1, e2, hgz]

/-- Witness for C10 at a concrete input: with the iterator on a
completed run at position 0 of a three-run table, the run at position 1
is never yielded during the rest of the pass. -/
theorem C10_removal_skips_successor_witness :
    decide ((([mkRun 1 JobType.complete JobStatus.final_staging_complete,
        mkRun 2 JobType.staging JobStatus.new,
        mkRun 3 JobType.staging JobStatus.new] : List Run).get ⟨0 + 1, by decide⟩).id ∈
      ((processFrom succeededEnv 3 0
          { runs := [mkRun 1 JobType.complete JobStatus.final_staging_complete,
              mkRun 2 JobType.staging JobStatus.new,
              mkRun 3 JobType.staging JobStatus.new]
            noActivity := true
            trace := []
            visited := [] }).visitedOf).map Run.id) = false :=
  decide_eq_false
    (C10_removal_skips_successor succeededEnv
      [mkRun 1 JobType.complete JobStatus.final_staging_complete,
        mkRun 2 JobType.staging JobStatus.new,
        mkRun 3 JobType.staging JobStatus.new]
      0 (by decide) true [] 3 (fun _ => rfl) rfl (by decide))

end Supervisor
